import Mathlib

/-!
Shallow embedding of the journey-tracking loop of the dublinbustracker
repository (src/monitorbystop.py and src/monitor.py).

Modelling conventions:
* A Python `datetime` is modelled as a `Timestamp` carrying its epoch-second
  value together with the `.hour` and `.weekday()` attributes the code reads;
  `(a - b).total_seconds()` is `a.sec - b.sec`.
* JSON observation records (`bus` in `data['live']`) are association lists
  from string keys to `PyVal`; `bus['k']` is a lookup that raises `KeyError`
  when the key is missing, exactly as in Python.
* Python's true division (`/`) is rational division; `ZeroDivisionError`
  is modelled explicitly, since `ℚ` division by zero would silently be 0.
* The per-cycle body sits inside `try: ... except Exception: ...`
  (monitorbystop.py lines 82-148, monitor.py lines 127-203): any raise
  aborts the remainder of the cycle but the loop continues.  A cycle is
  therefore a total function returning the partial state reached, the rows
  written before the raise, and the raised error if any.
* `tracked_buses` is a Python dict, modelled as an association list in
  insertion order (new keys appended at the end, as Python dicts do).
* Iteration order of `disappeared_buses` (a Python set) is unspecified;
  the model iterates in key-insertion order, one admissible order.
-/

/-- A Python/JSON scalar value, as found in the live-feed records. -/
inductive PyVal where
  | int (n : Int)
  | str (s : String)
deriving DecidableEq, Repr

/-- Errors the cycle body can raise (all are subclasses of `Exception`,
so all are caught by the per-cycle handler). -/
inductive PyErr where
  | keyError (k : String)
  | typeError
  | zeroDivisionError
  | nameError (n : String)
deriving DecidableEq, Repr

instance {α β : Type} [DecidableEq α] [DecidableEq β] :
    DecidableEq (Except α β) := fun a b =>
  match a, b with
  | Except.ok x, Except.ok y => decidable_of_iff (x = y) (by simp)
  | Except.error x, Except.error y => decidable_of_iff (x = y) (by simp)
  | Except.ok _, Except.error _ => isFalse (by simp)
  | Except.error _, Except.ok _ => isFalse (by simp)

/-- The attributes of a Python `datetime` that the monitoring code reads. -/
structure Timestamp where
  sec : Int
  hour : Int
  weekday : Fin 7
deriving DecidableEq, Repr

/-- One entry of `tracked_buses`: the dict built at
monitorbystop.py lines 98-105 / monitor.py lines 148-155.
`route`, `headsign`, `direction` are whatever JSON values the feed carried. -/
structure BusData where
  first_seen_at : Timestamp
  initial_due_in_seconds : Int
  route : PyVal
  headsign : PyVal
  direction : PyVal
  last_seen_due_seconds : Int
deriving DecidableEq, Repr

/-- The keys of the dict literal that creates a tracked entry
(monitorbystop.py lines 98-105, monitor.py lines 148-155), in source order.
These are the only fields a `TrackedJourney` record ever has. -/
def trackedEntryKeys : List String :=
  ["first_seen_at", "initial_due_in_seconds", "route", "headsign",
   "direction", "last_seen_due_seconds"]

/-- The tracked entry rendered as the Python dict the code actually stores:
the keys of `trackedEntryKeys` bound to the corresponding values.
Timestamps are stored under their epoch second. -/
def busDataDict (bd : BusData) : List (String × PyVal) :=
  [("first_seen_at", PyVal.int bd.first_seen_at.sec),
   ("initial_due_in_seconds", PyVal.int bd.initial_due_in_seconds),
   ("route", bd.route),
   ("headsign", bd.headsign),
   ("direction", bd.direction),
   ("last_seen_due_seconds", PyVal.int bd.last_seen_due_seconds)]

/-- Function `get_time_of_day` (monitorbystop.py lines 28-36, identical in
monitor.py lines 43-60 and ten_minute_monitor_test.py lines 23-40). -/
def get_time_of_day (hour : Int) : String :=
  if 5 ≤ hour ∧ hour < 12 then "Morning"
  else if 12 ≤ hour ∧ hour < 17 then "Afternoon"
  else if 17 ≤ hour ∧ hour < 21 then "Evening"
  else "Night"

/-- Function `is_peak_hour` (monitorbystop.py lines 38-42, identical in the other
variants). -/
def is_peak_hour (hour : Int) (day_of_week : Int) : Bool :=
  let is_morning_peak := decide (7 ≤ hour ∧ hour < 9)
  let is_evening_peak := decide (16 ≤ hour ∧ hour < 18)
  let is_weekday := decide (day_of_week < 5)
  (is_morning_peak || is_evening_peak) && is_weekday

/-- The day-name list indexed by `.weekday()` in the completion row. -/
def dayNames : List String :=
  ["Monday", "Tuesday", "Wednesday", "Thursday", "Friday", "Saturday", "Sunday"]

/-- A raw observation record from `data['live']`: a JSON object. -/
abbrev RawObs : Type := List (String × PyVal)

/-- Subscript access `bus['k']`: raises `KeyError` when the key is absent. -/
def pyLookup (obs : RawObs) (k : String) : Except PyErr PyVal :=
  match List.lookup k obs with
  | some v => Except.ok v
  | none => Except.error (PyErr.keyError k)

/-- Using a JSON value as a number (`bus['dueInSeconds'] / 60`):
a string raises `TypeError`. -/
def pyInt (v : PyVal) : Except PyErr Int :=
  match v with
  | PyVal.int n => Except.ok n
  | PyVal.str _ => Except.error PyErr.typeError

/-- The tracker's mapping `tracked_buses`, dict keyed by `trip_id`. -/
abbrev Tracked : Type := List (PyVal × BusData)

/-- Key list of the mapping. -/
def trackedKeys (t : Tracked) : List PyVal := t.map Prod.fst

/-- Membership test `trip_id in tracked_buses`. -/
def containsKey (t : Tracked) (k : PyVal) : Bool :=
  (List.lookup k t).isSome

/-- Assignment `tracked_buses[trip_id]['last_seen_due_seconds'] = bus['dueInSeconds']`
(monitorbystop.py line 95): update that one field in place. -/
def setLastSeenDue (t : Tracked) (k : PyVal) (due : Int) : Tracked :=
  t.map fun p => if p.1 = k then (p.1, { p.2 with last_seen_due_seconds := due }) else p

/-- Deletion `del tracked_buses[trip_id]` (monitorbystop.py line 143). -/
def eraseKey (t : Tracked) (k : PyVal) : Tracked :=
  t.filter fun p => ¬ p.1 = k

/-- Condition `due_in_minutes <= 10` for `due_in_minutes = bus['dueInSeconds'] / 60`
(monitorbystop.py lines 91 and 97): Python true division, so a rational
inequality. -/
def dueWithinThreshold (d : Int) : Prop := (d : ℚ) / 60 ≤ 10

/-- The rational threshold test is exactly `dueInSeconds <= 600`. -/
lemma dueWithinThreshold_iff (d : Int) : dueWithinThreshold d ↔ d ≤ 600 := by
  unfold dueWithinThreshold
  rw [div_le_iff₀ (by norm_num : (0 : ℚ) < 60)]
  norm_num
  exact_mod_cast Iff.rfl

instance : DecidablePred dueWithinThreshold := fun d =>
  decidable_of_iff (d ≤ 600) (dueWithinThreshold_iff d).symm

/-- State threaded through the per-observation loop: the mapping plus the
`current_trip_ids` set (modelled as the list of ids added, in order). -/
structure Phase1State where
  tracked : Tracked
  current : List PyVal

/-- Body of `for bus in data['live']` (monitorbystop.py lines 89-106;
the identical core of monitor.py lines 138-156):
read `trip_id` and `dueInSeconds` (either may raise), add the id to
`current_trip_ids`, refresh `last_seen_due_seconds` when already tracked,
and create a new entry when untracked and `dueInSeconds / 60 <= 10`
(true division; creation reads `route`/`headsign`/`direction`, any of
which may raise `KeyError`).  A raise leaves `tracked_buses` exactly as it
was before this observation, since the only mutation preceding a possible
raise (the `last_seen_due` refresh) implies the creation branch that does
the further lookups is not taken. -/
def processObs (now : Timestamp) (s : Phase1State) (bus : RawObs) :
    Except PyErr Phase1State := do
  let tripV ← pyLookup bus "trip_id"
  let dueV ← pyLookup bus "dueInSeconds"
  let due ← pyInt dueV
  let current := s.current ++ [tripV]
  let tracked :=
    if containsKey s.tracked tripV then setLastSeenDue s.tracked tripV due
    else s.tracked
  if ¬ containsKey tracked tripV ∧ dueWithinThreshold due then do
    let route ← pyLookup bus "route"
    let headsign ← pyLookup bus "headsign"
    let direction ← pyLookup bus "direction"
    Except.ok ⟨tracked ++ [(tripV, ⟨now, due, route, headsign, direction, due⟩)], current⟩
  else
    Except.ok ⟨tracked, current⟩

/-- Fold of `processObs` over the snapshot with Python's raise semantics:
on a raise the loop stops, keeping the state reached so far. -/
def foldPhase1 (now : Timestamp) (s : Phase1State) :
    List RawObs → Phase1State × Option PyErr
  | [] => (s, none)
  | bus :: rest =>
    match processObs now s bus with
    | Except.ok s' => foldPhase1 now s' rest
    | Except.error e => (s, some e)

/-- One CSV data row of the monitorbystop.py variant (lines 120-139),
with timestamps kept as `Timestamp` rather than their `strftime` strings
and exact rational arithmetic for the float columns. -/
structure Row where
  trip_id : PyVal
  route : PyVal
  headsign : PyVal
  direction : PyVal
  first_seen_at : Timestamp
  initial_due_in_seconds : Int
  arrival_time : Timestamp
  actual_duration_seconds : Int
  prediction_difference_seconds : Int
  prediction_difference_minutes : ℚ
  absolute_difference_seconds : Int
  percentage_difference : ℚ
  day_of_week : String
  is_weekend : Bool
  time_of_day : String
  peak_hours : Bool
  tracking_duration_seconds : Int
  last_seen_due_seconds : Int
deriving DecidableEq, Repr

/-- Finalization of one disappeared trip (monitorbystop.py lines 110-139):
the metrics and the row, or the error raised while computing them.
`(prediction_difference / bus_data['initial_due_in_seconds']) * 100`
raises `ZeroDivisionError` when `initial_due_in_seconds` is 0. -/
def completionRow (trip : PyVal) (bd : BusData) (now : Timestamp) :
    Except PyErr Row :=
  let actual_duration : Int := now.sec - bd.first_seen_at.sec
  let prediction_difference : Int := actual_duration - bd.initial_due_in_seconds
  let day_of_week : Fin 7 := bd.first_seen_at.weekday
  let hour : Int := bd.first_seen_at.hour
  if bd.initial_due_in_seconds = 0 then Except.error PyErr.zeroDivisionError
  else Except.ok
    { trip_id := trip
      route := bd.route
      headsign := bd.headsign
      direction := bd.direction
      first_seen_at := bd.first_seen_at
      initial_due_in_seconds := bd.initial_due_in_seconds
      arrival_time := now
      actual_duration_seconds := actual_duration
      prediction_difference_seconds := prediction_difference
      prediction_difference_minutes := (prediction_difference : ℚ) / 60
      absolute_difference_seconds := |prediction_difference|
      percentage_difference :=
        (prediction_difference : ℚ) / (bd.initial_due_in_seconds : ℚ) * 100
      day_of_week := dayNames.getD day_of_week.val ""
      is_weekend := decide (5 ≤ day_of_week.val)
      time_of_day := get_time_of_day hour
      peak_hours := is_peak_hour hour day_of_week.val
      tracking_duration_seconds := actual_duration
      last_seen_due_seconds := bd.last_seen_due_seconds }

/-- Loop `for trip_id in disappeared_buses` (monitorbystop.py lines 109-143),
generic in the row computation so the monitor.py variant can reuse it:
look the entry up, compute its row, write it, delete the entry, continue.
A raise stops the loop; rows written and deletions performed before the
raise persist. -/
def finalizeLoopWith (f : PyVal → BusData → Timestamp → Except PyErr Row)
    (now : Timestamp) (tracked : Tracked) :
    List PyVal → Tracked × List Row × Option PyErr
  | [] => (tracked, [], none)
  | trip :: rest =>
    match List.lookup trip tracked with
    | none => (tracked, [], some (PyErr.keyError "trip_id"))
    | some bd =>
      match f trip bd now with
      | Except.error e => (tracked, [], some e)
      | Except.ok row =>
        let r := finalizeLoopWith f now (eraseKey tracked trip) rest
        (r.1, row :: r.2.1, r.2.2)

/-- One full poll cycle of monitorbystop.py (the `try` body, lines 83-145,
minus the fetch and the sleep): process every observation, then finalize
every tracked trip absent from `current_trip_ids`.  Returns the mapping
after the cycle, the rows appended to the CSV, and the error caught by the
`except` handler, if any. -/
def runCycle (tracked : Tracked) (now : Timestamp) (live : List RawObs) :
    Tracked × List Row × Option PyErr :=
  match foldPhase1 now ⟨tracked, []⟩ live with
  | (s, some e) => (s.tracked, [], some e)
  | (s, none) =>
    let disappeared := (trackedKeys s.tracked).filter fun k => ¬ k ∈ s.current
    finalizeLoopWith completionRow now s.tracked disappeared

/-- The outer `while True` loop over a finite list of polls: each cycle's
error is caught and printed, and the loop continues with the mapping the
aborted cycle left behind.  Returns the final mapping and all rows written. -/
def runCycles (tracked : Tracked) :
    List (Timestamp × List RawObs) → Tracked × List Row
  | [] => (tracked, [])
  | (now, live) :: rest =>
    let c := runCycle tracked now live
    let r := runCycles c.1 rest
    (r.1, c.2.1 ++ r.2)

/-! ### The multi-stop variant: `monitor_bus(stop_ids, route_numbers)` of
src/monitor.py.

Its per-observation body (lines 135-156) is the same as monitorbystop.py's
wrapped in the route filter
`if route_numbers is None or bus['route'] in route_numbers`.
Its completion row (lines 173-193) inserts a `stop_id` column as the third
field.  The name `stop_id` is assigned nowhere in that function (whose
parameter is `stop_ids`), in no enclosing scope, and not at module level,
so evaluating it raises `NameError`. -/

/-- Every name bound in the scope chain visible at monitor.py line 176:
the function's parameters, every name assigned anywhere in `monitor_bus`
(locals are function-scoped in Python), and the module's globals
(imports and top-level defs).  Transcribed from src/monitor.py. -/
def monitorBusScope : List String :=
  ["stop_ids", "route_numbers",
   "data_dir", "filename", "f", "writer", "tracked_buses",
   "stops_desc", "routes_desc", "current_time", "data",
   "current_trip_ids", "bus", "trip_id", "due_in_minutes",
   "disappeared_buses", "bus_data", "actual_duration",
   "prediction_difference", "day_of_week", "hour", "e",
   "csv", "datetime", "time", "json", "urllib", "os",
   "Dict", "Any", "List", "Optional",
   "get_live_data", "get_time_of_day", "is_peak_hour", "monitor_bus"]

/-- Evaluating a bare name in `monitor_bus` of monitor.py: `NameError`
unless the name is bound somewhere in the scope chain. -/
def resolveName (n : String) : Except PyErr Unit :=
  if n ∈ monitorBusScope then Except.ok () else Except.error (PyErr.nameError n)

/-- Finalization of one disappeared trip in monitor.py (lines 161-193).
The row literal evaluates its elements in order: `trip_id`,
`bus_data['route']`, then the bare name `stop_id` (line 176) — which is
where evaluation raises; the remaining columns (including the
zero-division-prone percentage) are identical to `completionRow`. -/
def completionRowMulti (trip : PyVal) (bd : BusData) (now : Timestamp) :
    Except PyErr Row := do
  let _ ← resolveName "stop_id"
  completionRow trip bd now

/-- Body of `for bus in data['live']` in monitor.py (lines 135-156):
the route filter evaluates `bus['route']` (which may raise `KeyError`)
only when `route_numbers` is not `None`; an observation failing the filter
is skipped entirely (its trip id is not even added to `current_trip_ids`). -/
def processObsMulti (route_numbers : Option (List PyVal)) (now : Timestamp)
    (s : Phase1State) (bus : RawObs) : Except PyErr Phase1State :=
  match route_numbers with
  | none => processObs now s bus
  | some rs => do
    let route ← pyLookup bus "route"
    if route ∈ rs then processObs now s bus else Except.ok s

/-- Fold of `processObsMulti` with Python's raise semantics. -/
def foldPhase1Multi (route_numbers : Option (List PyVal)) (now : Timestamp)
    (s : Phase1State) : List RawObs → Phase1State × Option PyErr
  | [] => (s, none)
  | bus :: rest =>
    match processObsMulti route_numbers now s bus with
    | Except.ok s' => foldPhase1Multi route_numbers now s' rest
    | Except.error e => (s, some e)

/-- One full poll cycle of monitor.py's `monitor_bus(stop_ids,
route_numbers)` (the `try` body, lines 128-200, minus fetch and sleep). -/
def runCycleMulti (route_numbers : Option (List PyVal)) (tracked : Tracked)
    (now : Timestamp) (live : List RawObs) :
    Tracked × List Row × Option PyErr :=
  match foldPhase1Multi route_numbers now ⟨tracked, []⟩ live with
  | (s, some e) => (s.tracked, [], some e)
  | (s, none) =>
    let disappeared := (trackedKeys s.tracked).filter fun k => ¬ k ∈ s.current
    finalizeLoopWith completionRowMulti now s.tracked disappeared

/-! ### Basic facts about the mapping operations -/

lemma trackedKeys_setLastSeenDue (t : Tracked) (k : PyVal) (d : Int) :
    trackedKeys (setLastSeenDue t k d) = trackedKeys t := by
  induction t with
  | nil => rfl
  | cons p rest ih =>
    simp only [setLastSeenDue, trackedKeys, List.map_cons] at *
    by_cases h : p.1 = k <;> simp [h, ih]

lemma containsKey_iff (t : Tracked) (k : PyVal) :
    containsKey t k = true ↔ k ∈ trackedKeys t := by
  induction t with
  | nil => simp [containsKey, trackedKeys, List.lookup]
  | cons p rest ih =>
    simp only [containsKey, trackedKeys, List.map_cons, List.mem_cons] at *
    rcases p with ⟨a, b⟩
    by_cases h : k = a
    · subst h; simp [List.lookup]
    · have hba : (k == a) = false := beq_false_of_ne h
      simp [List.lookup, hba, h, ih]

lemma containsKey_setLastSeenDue (t : Tracked) (k j : PyVal) (d : Int) :
    containsKey (setLastSeenDue t k d) j = containsKey t j := by
  by_cases h : containsKey t j
  · have := (containsKey_iff t j).mp h
    have : j ∈ trackedKeys (setLastSeenDue t k d) := by
      rwa [trackedKeys_setLastSeenDue]
    simp [h, (containsKey_iff _ j).mpr this]
  · have h2 : ¬ j ∈ trackedKeys t := fun hm => h ((containsKey_iff t j).mpr hm)
    have h3 : ¬ containsKey (setLastSeenDue t k d) j := by
      intro hc
      exact h2 (by rw [← trackedKeys_setLastSeenDue t k d]; exact (containsKey_iff _ j).mp hc)
    simp only [Bool.not_eq_true] at h h3
    rw [h, h3]

lemma lookup_cons_self {β : Type} (a : PyVal) (b : β) (rest : List (PyVal × β)) :
    List.lookup a ((a, b) :: rest) = some b := by
  simp [List.lookup]

lemma lookup_cons_ne {β : Type} {k a : PyVal} (b : β) (rest : List (PyVal × β))
    (hne : ¬ k = a) : List.lookup k ((a, b) :: rest) = List.lookup k rest := by
  simp [List.lookup, beq_false_of_ne hne]

lemma not_mem_trackedKeys_eraseKey (t : Tracked) (k : PyVal) :
    k ∉ trackedKeys (eraseKey t k) := by
  intro h
  obtain ⟨p, hp, hfst⟩ := List.mem_map.mp h
  have hmem := List.mem_filter.mp hp
  have : ¬ p.1 = k := by simpa using hmem.2
  exact this hfst

lemma trackedKeys_eraseKey_sublist (t : Tracked) (k : PyVal) :
    List.Sublist (trackedKeys (eraseKey t k)) (trackedKeys t) :=
  (List.filter_sublist t).map Prod.fst

/-- A successful `processObs` run falls in exactly one of three cases:
refresh of an already-tracked trip, creation of a new entry (threshold
met), or ignoring an untracked too-far-out trip. -/
lemma processObs_ok_cases (now : Timestamp) (s s' : Phase1State) (bus : RawObs)
    (h : processObs now s bus = Except.ok s') :
    ∃ tv due, pyLookup bus "trip_id" = Except.ok tv ∧
      pyLookup bus "dueInSeconds" = Except.ok (PyVal.int due) ∧
      s'.current = s.current ++ [tv] ∧
      ((containsKey s.tracked tv = true ∧
        s'.tracked = setLastSeenDue s.tracked tv due) ∨
       (containsKey s.tracked tv = false ∧ dueWithinThreshold due ∧
        ∃ rt hs dr,
          s'.tracked = s.tracked ++ [(tv, ⟨now, due, rt, hs, dr, due⟩)]) ∨
       (containsKey s.tracked tv = false ∧ ¬ dueWithinThreshold due ∧
        s'.tracked = s.tracked)) := by
  unfold processObs at h
  cases htv : pyLookup bus "trip_id" with
  | error e => rw [htv] at h; simp [Bind.bind, Except.bind] at h
  | ok tv =>
  rw [htv] at h
  simp only [Bind.bind, Except.bind] at h
  cases hdv : pyLookup bus "dueInSeconds" with
  | error e => rw [hdv] at h; simp [Bind.bind, Except.bind] at h
  | ok v =>
  rw [hdv] at h
  simp only [Bind.bind, Except.bind] at h
  cases hiv : pyInt v with
  | error e => rw [hiv] at h; simp [Bind.bind, Except.bind] at h
  | ok due =>
  rw [hiv] at h
  have hv : v = PyVal.int due := by
    cases v with
    | int n => simp [pyInt] at hiv; rw [hiv]
    | str s => simp [pyInt] at hiv
  subst hv
  simp only [Bind.bind, Except.bind] at h
  refine ⟨tv, due, rfl, rfl, ?_⟩
  by_cases hc : containsKey s.tracked tv
  · rw [if_pos hc] at h
    have hck : ¬ (¬ containsKey (setLastSeenDue s.tracked tv due) tv = true ∧
        dueWithinThreshold due) := by
      rw [containsKey_setLastSeenDue]
      intro hand
      exact hand.1 hc
    rw [if_neg hck] at h
    injection h with h'
    subst h'
    exact ⟨rfl, Or.inl ⟨hc, rfl⟩⟩
  · have hc' : containsKey s.tracked tv = false := by
      simpa using hc
    rw [if_neg hc] at h
    by_cases hq : dueWithinThreshold due
    · rw [if_pos ⟨hc, hq⟩] at h
      cases hr : pyLookup bus "route" with
      | error e => simp [hr] at h
      | ok rt =>
      simp only [hr] at h
      cases hh : pyLookup bus "headsign" with
      | error e => simp [hh] at h
      | ok hs =>
      simp only [hh] at h
      cases hd : pyLookup bus "direction" with
      | error e => simp [hd] at h
      | ok dr =>
      simp only [hd] at h
      injection h with h'
      subst h'
      exact ⟨rfl, Or.inr (Or.inl ⟨hc', hq, rt, hs, dr, rfl⟩)⟩
    · rw [if_neg (fun hand => hq hand.2)] at h
      injection h with h'
      subst h'
      exact ⟨rfl, Or.inr (Or.inr ⟨hc', hq, rfl⟩)⟩

lemma lookup_setLastSeenDue_self (t : Tracked) (k : PyVal) (d : Int)
    (bd : BusData) (h : List.lookup k t = some bd) :
    List.lookup k (setLastSeenDue t k d) =
      some { bd with last_seen_due_seconds := d } := by
  induction t with
  | nil => simp [List.lookup] at h
  | cons p rest ih =>
    rcases p with ⟨a, b⟩
    simp only [setLastSeenDue, List.map_cons]
    by_cases hk : k = a
    · subst hk
      rw [lookup_cons_self] at h
      injection h with hb
      subst hb
      rw [if_pos rfl, lookup_cons_self]
    · have hne : ¬ a = k := fun hh => hk hh.symm
      rw [lookup_cons_ne _ _ hk] at h
      rw [if_neg hne, lookup_cons_ne _ _ hk]
      exact ih h

/-! ### Facts about the per-cycle fold over observations -/

lemma processObs_keys_mono (now : Timestamp) (s s' : Phase1State) (bus : RawObs)
    (h : processObs now s bus = Except.ok s') (k : PyVal)
    (hk : k ∈ trackedKeys s.tracked) : k ∈ trackedKeys s'.tracked := by
  obtain ⟨tv, due, -, -, -, hcase⟩ := processObs_ok_cases now s s' bus h
  rcases hcase with ⟨-, ht⟩ | ⟨-, -, rt, hs', dr, ht⟩ | ⟨-, -, ht⟩
  · rw [ht, trackedKeys_setLastSeenDue]; exact hk
  · rw [ht]; unfold trackedKeys; rw [List.map_append]; exact List.mem_append_left _ hk
  · rw [ht]; exact hk

lemma foldPhase1_keys_mono (now : Timestamp) (live : List RawObs)
    (s : Phase1State) (k : PyVal) (hk : k ∈ trackedKeys s.tracked) :
    k ∈ trackedKeys (foldPhase1 now s live).1.tracked := by
  induction live generalizing s with
  | nil => exact hk
  | cons bus rest ih =>
    unfold foldPhase1
    cases hp : processObs now s bus with
    | error e => exact hk
    | ok s' => exact ih s' (processObs_keys_mono now s s' bus hp k hk)

lemma processObs_nodup (now : Timestamp) (s s' : Phase1State) (bus : RawObs)
    (h : processObs now s bus = Except.ok s')
    (hn : (trackedKeys s.tracked).Nodup) : (trackedKeys s'.tracked).Nodup := by
  obtain ⟨tv, due, -, -, -, hcase⟩ := processObs_ok_cases now s s' bus h
  rcases hcase with ⟨-, ht⟩ | ⟨hcf, -, rt, hs', dr, ht⟩ | ⟨-, -, ht⟩
  · rw [ht, trackedKeys_setLastSeenDue]; exact hn
  · rw [ht]
    unfold trackedKeys
    rw [List.map_append]
    refine List.Nodup.append hn (List.nodup_singleton tv) ?_
    intro a ha hb
    simp only [List.map_cons, List.map_nil, List.mem_singleton] at hb
    subst hb
    exact absurd ((containsKey_iff s.tracked a).mpr ha) (by simp [hcf])
  · rw [ht]; exact hn

lemma foldPhase1_nodup (now : Timestamp) (live : List RawObs) (s : Phase1State)
    (hn : (trackedKeys s.tracked).Nodup) :
    (trackedKeys (foldPhase1 now s live).1.tracked).Nodup := by
  induction live generalizing s with
  | nil => exact hn
  | cons bus rest ih =>
    unfold foldPhase1
    cases hp : processObs now s bus with
    | error e => exact hn
    | ok s' => exact ih s' (processObs_nodup now s s' bus hp hn)

/-- Every id in `current_trip_ids` after the fold either was there before or
is the `trip_id` of some observation in the snapshot. -/
lemma foldPhase1_current_mem (now : Timestamp) (live : List RawObs)
    (s : Phase1State) (k : PyVal)
    (hk : k ∈ (foldPhase1 now s live).1.current) :
    k ∈ s.current ∨ ∃ o ∈ live, pyLookup o "trip_id" = Except.ok k := by
  induction live generalizing s with
  | nil => exact Or.inl hk
  | cons bus rest ih =>
    rw [foldPhase1] at hk
    cases hp : processObs now s bus with
    | error e => rw [hp] at hk; exact Or.inl hk
    | ok s' =>
      rw [hp] at hk
      obtain ⟨tv, due, htv, -, hcur, -⟩ := processObs_ok_cases now s s' bus hp
      rcases ih s' hk with hin | ⟨o, ho, hlk⟩
      · rw [hcur] at hin
        rcases List.mem_append.mp hin with hin | hin
        · exact Or.inl hin
        · simp only [List.mem_singleton] at hin
          subst hin
          exact Or.inr ⟨bus, List.mem_cons_self bus rest, htv⟩
      · exact Or.inr ⟨o, List.mem_cons_of_mem bus ho, hlk⟩

/-- Splitting the fold over an appended snapshot: a raise in the first part
hides the second entirely. -/
lemma foldPhase1_append (now : Timestamp) (xs ys : List RawObs) (s : Phase1State) :
    foldPhase1 now s (xs ++ ys) =
      match foldPhase1 now s xs with
      | (s', none) => foldPhase1 now s' ys
      | (s', some e) => (s', some e) := by
  induction xs generalizing s with
  | nil => rfl
  | cons bus rest ih =>
    rw [List.cons_append, foldPhase1, foldPhase1]
    cases hp : processObs now s bus with
    | error e => rfl
    | ok s' => exact ih s'

/-! ### Facts about the finalize loop -/

lemma finalize_keys_sub (f : PyVal → BusData → Timestamp → Except PyErr Row)
    (now : Timestamp) (ds : List PyVal) (t : Tracked) (k : PyVal)
    (hk : k ∈ trackedKeys (finalizeLoopWith f now t ds).1) :
    k ∈ trackedKeys t := by
  induction ds generalizing t with
  | nil => exact hk
  | cons trip rest ih =>
    rw [finalizeLoopWith] at hk
    cases hl : List.lookup trip t with
    | none => simp only [hl] at hk; exact hk
    | some bd =>
      simp only [hl] at hk
      cases hf : f trip bd now with
      | error e => simp only [hf] at hk; exact hk
      | ok row =>
        simp only [hf] at hk
        exact (trackedKeys_eraseKey_sublist t trip).mem (ih (eraseKey t trip) hk)

lemma finalize_rows_origin (f : PyVal → BusData → Timestamp → Except PyErr Row)
    (now : Timestamp) (ds : List PyVal) (t : Tracked) (r : Row)
    (hr : r ∈ (finalizeLoopWith f now t ds).2.1) :
    ∃ trip bd, f trip bd now = Except.ok r := by
  induction ds generalizing t with
  | nil => simp [finalizeLoopWith] at hr
  | cons trip rest ih =>
    rw [finalizeLoopWith] at hr
    cases hl : List.lookup trip t with
    | none => simp only [hl] at hr; simp at hr
    | some bd =>
      simp only [hl] at hr
      cases hf : f trip bd now with
      | error e => simp only [hf] at hr; simp at hr
      | ok row =>
        simp only [hf] at hr
        simp only [List.mem_cons] at hr
        rcases hr with hr | hr
        · exact ⟨trip, bd, hr ▸ hf⟩
        · exact ih (eraseKey t trip) hr



/-- Rows emitted by the finalize loop belong to trips deleted from the
mapping: every emitted row's trip id is absent from the mapping the loop
returns (for row computations that echo the trip id into the row). -/
lemma finalize_rows_absent (f : PyVal → BusData → Timestamp → Except PyErr Row)
    (hf : ∀ tr bd now r, f tr bd now = Except.ok r → r.trip_id = tr)
    (now : Timestamp) (ds : List PyVal) (t : Tracked) (r : Row)
    (hr : r ∈ (finalizeLoopWith f now t ds).2.1) :
    r.trip_id ∉ trackedKeys (finalizeLoopWith f now t ds).1 := by
  induction ds generalizing t with
  | nil => simp [finalizeLoopWith] at hr
  | cons trip rest ih =>
    rw [finalizeLoopWith] at hr ⊢
    cases hl : List.lookup trip t with
    | none => simp only [hl] at hr; simp at hr
    | some bd =>
      simp only [hl] at hr ⊢
      cases hg : f trip bd now with
      | error e => simp only [hg] at hr; simp at hr
      | ok row =>
        simp only [hg] at hr ⊢
        simp only [List.mem_cons] at hr
        rcases hr with hr | hr
        · subst hr
          rw [hf trip bd now _ hg]
          intro hmem
          exact not_mem_trackedKeys_eraseKey t trip
            (finalize_keys_sub f now rest (eraseKey t trip) trip hmem)
        · exact ih (eraseKey t trip) hr

/-- When the finalize loop raises nowhere, every disappeared trip is
removed from the mapping and gets exactly its own emitted row. -/
lemma finalize_complete (f : PyVal → BusData → Timestamp → Except PyErr Row)
    (hf : ∀ tr bd now r, f tr bd now = Except.ok r → r.trip_id = tr)
    (now : Timestamp) (ds : List PyVal) (t : Tracked)
    (he : (finalizeLoopWith f now t ds).2.2 = none) (d : PyVal) (hd : d ∈ ds) :
    d ∉ trackedKeys (finalizeLoopWith f now t ds).1 ∧
      ∃ r ∈ (finalizeLoopWith f now t ds).2.1, r.trip_id = d := by
  induction ds generalizing t with
  | nil => simp at hd
  | cons trip rest ih =>
    rw [finalizeLoopWith] at he ⊢
    cases hl : List.lookup trip t with
    | none => simp only [hl] at he; simp at he
    | some bd =>
      simp only [hl] at he ⊢
      cases hg : f trip bd now with
      | error e => simp only [hg] at he; simp at he
      | ok row =>
        simp only [hg] at he ⊢
        rcases List.mem_cons.mp hd with hd | hd
        · subst hd
          constructor
          · intro hmem
            exact not_mem_trackedKeys_eraseKey t d
              (finalize_keys_sub f now rest (eraseKey t d) d hmem)
          · exact ⟨row, List.mem_cons_self _ _, hf d bd now row hg⟩
        · obtain ⟨h1, r, hr, hrt⟩ := ih (eraseKey t trip) he hd
          exact ⟨h1, r, List.mem_cons_of_mem row hr, hrt⟩

lemma finalize_nodup (f : PyVal → BusData → Timestamp → Except PyErr Row)
    (now : Timestamp) (ds : List PyVal) (t : Tracked)
    (hn : (trackedKeys t).Nodup) :
    (trackedKeys (finalizeLoopWith f now t ds).1).Nodup := by
  induction ds generalizing t with
  | nil => exact hn
  | cons trip rest ih =>
    rw [finalizeLoopWith]
    cases hl : List.lookup trip t with
    | none => exact hn
    | some bd =>
      cases hg : f trip bd now with
      | error e => simp only [hg]; exact hn
      | ok row =>
        simp only [hg]
        exact ih (eraseKey t trip)
          ((trackedKeys_eraseKey_sublist t trip).nodup hn)

/-- When the row computation raises on every input, the finalize loop
writes no row and deletes no tracked entry. -/
lemma finalize_all_error (f : PyVal → BusData → Timestamp → Except PyErr Row)
    (hf : ∀ tr bd now, ∃ e, f tr bd now = Except.error e)
    (now : Timestamp) (ds : List PyVal) (t : Tracked) :
    (finalizeLoopWith f now t ds).1 = t ∧
      (finalizeLoopWith f now t ds).2.1 = [] := by
  cases ds with
  | nil => exact ⟨rfl, rfl⟩
  | cons trip rest =>
    rw [finalizeLoopWith]
    cases hl : List.lookup trip t with
    | none => exact ⟨rfl, rfl⟩
    | some bd =>
      obtain ⟨e, he⟩ := hf trip bd now
      simp [he]

/-! ### Facts about the completion row and the assembled cycle -/

/-- The fields of a successfully computed completion row, in terms of the
tracked entry and the cycle time. -/
lemma completionRow_fields (trip : PyVal) (bd : BusData) (now : Timestamp)
    (row : Row) (h : completionRow trip bd now = Except.ok row) :
    row.trip_id = trip ∧
    row.first_seen_at = bd.first_seen_at ∧
    row.initial_due_in_seconds = bd.initial_due_in_seconds ∧
    row.arrival_time = now ∧
    row.actual_duration_seconds = now.sec - bd.first_seen_at.sec ∧
    row.prediction_difference_seconds =
      row.actual_duration_seconds - row.initial_due_in_seconds ∧
    row.prediction_difference_minutes =
      (row.prediction_difference_seconds : ℚ) / 60 ∧
    row.absolute_difference_seconds = |row.prediction_difference_seconds| ∧
    row.tracking_duration_seconds = row.actual_duration_seconds ∧
    row.time_of_day = get_time_of_day bd.first_seen_at.hour ∧
    row.peak_hours = is_peak_hour bd.first_seen_at.hour bd.first_seen_at.weekday.val := by
  unfold completionRow at h
  by_cases hz : bd.initial_due_in_seconds = 0
  · rw [if_pos hz] at h
    exact absurd h (by simp)
  · rw [if_neg hz] at h
    injection h with h'
    subst h'
    exact ⟨rfl, rfl, rfl, rfl, rfl, rfl, rfl, rfl, rfl, rfl, rfl⟩

lemma completionRow_trip_id (trip : PyVal) (bd : BusData) (now : Timestamp)
    (row : Row) (h : completionRow trip bd now = Except.ok row) :
    row.trip_id = trip :=
  (completionRow_fields trip bd now row h).1

/-- Every row a cycle emits was produced by `completionRow` at that cycle's
`current_time`. -/
lemma runCycle_rows_origin (tracked : Tracked) (now : Timestamp)
    (live : List RawObs) (r : Row) (hr : r ∈ (runCycle tracked now live).2.1) :
    ∃ trip bd, completionRow trip bd now = Except.ok r := by
  unfold runCycle at hr
  rcases hfold : foldPhase1 now ⟨tracked, []⟩ live with ⟨s, oe⟩
  rw [hfold] at hr
  cases oe with
  | some e => simp at hr
  | none => exact finalize_rows_origin _ now _ s.tracked r hr

lemma runCycle_nodup (tracked : Tracked) (now : Timestamp) (live : List RawObs)
    (hn : (trackedKeys tracked).Nodup) :
    (trackedKeys (runCycle tracked now live).1).Nodup := by
  unfold runCycle
  rcases hfold : foldPhase1 now ⟨tracked, []⟩ live with ⟨s, oe⟩
  have hs : (trackedKeys s.tracked).Nodup := by
    have := foldPhase1_nodup now live ⟨tracked, []⟩ hn
    rwa [hfold] at this
  cases oe with
  | some e => exact hs
  | none => exact finalize_nodup _ now _ s.tracked hs

/-! ### Facts about the multi-stop variant -/

/-- Finalizing any trip in the multi-stop variant raises
`NameError: name 'stop_id' is not defined`. -/
lemma completionRowMulti_error (trip : PyVal) (bd : BusData) (now : Timestamp) :
    completionRowMulti trip bd now = Except.error (PyErr.nameError "stop_id") := by
  have hres : resolveName "stop_id" = Except.error (PyErr.nameError "stop_id") := by
    simp [resolveName, monitorBusScope]
  unfold completionRowMulti
  rw [hres]
  rfl

lemma processObsMulti_keys_mono (rn : Option (List PyVal)) (now : Timestamp)
    (s s' : Phase1State) (bus : RawObs)
    (h : processObsMulti rn now s bus = Except.ok s') (k : PyVal)
    (hk : k ∈ trackedKeys s.tracked) : k ∈ trackedKeys s'.tracked := by
  cases rn with
  | none => exact processObs_keys_mono now s s' bus h k hk
  | some rs =>
    unfold processObsMulti at h
    cases hr : pyLookup bus "route" with
    | error e => rw [hr] at h; simp [Bind.bind, Except.bind] at h
    | ok rv =>
      rw [hr] at h
      simp only [Bind.bind, Except.bind] at h
      by_cases hin : rv ∈ rs
      · rw [if_pos hin] at h
        exact processObs_keys_mono now s s' bus h k hk
      · rw [if_neg hin] at h
        injection h with h'
        subst h'
        exact hk

lemma foldPhase1Multi_keys_mono (rn : Option (List PyVal)) (now : Timestamp)
    (live : List RawObs) (s : Phase1State) (k : PyVal)
    (hk : k ∈ trackedKeys s.tracked) :
    k ∈ trackedKeys (foldPhase1Multi rn now s live).1.tracked := by
  induction live generalizing s with
  | nil => exact hk
  | cons bus rest ih =>
    unfold foldPhase1Multi
    cases hp : processObsMulti rn now s bus with
    | error e => exact hk
    | ok s' => exact ih s' (processObsMulti_keys_mono rn now s s' bus hp k hk)

/-! ### The tracking threshold and the entry/update rules -/

/-- Condition `bus['dueInSeconds'] / 60 <= 10` (true division) is exactly
`dueInSeconds <= 600`. -/
lemma due_minutes_iff (d : Int) : ((d : ℚ) / 60 ≤ 10) ↔ d ≤ 600 :=
  dueWithinThreshold_iff d

/-- Direct computation of `processObs` on a well-formed observation of an
untracked trip within the threshold: a new entry is appended with
`first_seen_at = now` and both due fields equal to the observed value. -/
lemma processObs_creates (now : Timestamp) (s : Phase1State) (bus : RawObs)
    (tv rt hs dr : PyVal) (due : Int)
    (htv : pyLookup bus "trip_id" = Except.ok tv)
    (hdv : pyLookup bus "dueInSeconds" = Except.ok (PyVal.int due))
    (hrt : pyLookup bus "route" = Except.ok rt)
    (hhs : pyLookup bus "headsign" = Except.ok hs)
    (hdr : pyLookup bus "direction" = Except.ok dr)
    (hnc : containsKey s.tracked tv = false)
    (hle : due ≤ 600) :
    processObs now s bus =
      Except.ok ⟨s.tracked ++ [(tv, ⟨now, due, rt, hs, dr, due⟩)],
        s.current ++ [tv]⟩ := by
  have hni : ¬ containsKey s.tracked tv = true := by simp [hnc]
  have hcond : ¬ containsKey s.tracked tv = true ∧ dueWithinThreshold due :=
    ⟨hni, (dueWithinThreshold_iff due).mpr hle⟩
  unfold processObs
  rw [htv]
  simp only [Bind.bind, Except.bind]
  rw [hdv]
  simp only [pyInt]
  rw [if_neg hni, if_pos hcond, hrt]
  simp only [Except.bind]
  rw [hhs]
  simp only [Except.bind]
  rw [hdr]

/-- Direct computation of `processObs` on an untracked trip beyond the
threshold: the observation is ignored (only `current_trip_ids` grows). -/
lemma processObs_ignores (now : Timestamp) (s : Phase1State) (bus : RawObs)
    (tv : PyVal) (due : Int)
    (htv : pyLookup bus "trip_id" = Except.ok tv)
    (hdv : pyLookup bus "dueInSeconds" = Except.ok (PyVal.int due))
    (hnc : containsKey s.tracked tv = false)
    (hgt : 600 < due) :
    processObs now s bus = Except.ok ⟨s.tracked, s.current ++ [tv]⟩ := by
  have hni : ¬ containsKey s.tracked tv = true := by simp [hnc]
  have hcond : ¬ (¬ containsKey s.tracked tv = true ∧ dueWithinThreshold due) :=
    fun hand => absurd ((dueWithinThreshold_iff due).mp hand.2) (by omega)
  unfold processObs
  rw [htv]
  simp only [Bind.bind, Except.bind]
  rw [hdv]
  simp only [pyInt]
  rw [if_neg hni, if_neg hcond]

/-- Direct computation of `processObs` on an already-tracked trip: the
only mapping change is `last_seen_due_seconds := dueInSeconds` on that
entry. -/
lemma processObs_refreshes (now : Timestamp) (s : Phase1State) (bus : RawObs)
    (tv : PyVal) (due : Int)
    (htv : pyLookup bus "trip_id" = Except.ok tv)
    (hdv : pyLookup bus "dueInSeconds" = Except.ok (PyVal.int due))
    (hc : containsKey s.tracked tv = true) :
    processObs now s bus =
      Except.ok ⟨setLastSeenDue s.tracked tv due, s.current ++ [tv]⟩ := by
  unfold processObs
  rw [htv]
  simp only [Bind.bind, Except.bind]
  rw [hdv]
  simp only [pyInt]
  rw [if_pos hc]
  rw [if_neg (by rw [containsKey_setLastSeenDue]; intro hand; exact hand.1 hc)]

/-! ### A trip only ever observed beyond the threshold is never tracked -/

lemma processObs_not_tracked (now : Timestamp) (s s' : Phase1State)
    (bus : RawObs) (trip : PyVal)
    (h : processObs now s bus = Except.ok s')
    (hnt : trip ∉ trackedKeys s.tracked)
    (hbig : ∀ d : Int, pyLookup bus "trip_id" = Except.ok trip →
      pyLookup bus "dueInSeconds" = Except.ok (PyVal.int d) → 600 < d) :
    trip ∉ trackedKeys s'.tracked := by
  obtain ⟨tv, due, htv, hdv, -, hcase⟩ := processObs_ok_cases now s s' bus h
  rcases hcase with ⟨-, ht⟩ | ⟨-, hq, rt, hs', dr, ht⟩ | ⟨-, -, ht⟩
  · rw [ht, trackedKeys_setLastSeenDue]; exact hnt
  · rw [ht]
    unfold trackedKeys
    rw [List.map_append]
    intro hmem
    rcases List.mem_append.mp hmem with hmem | hmem
    · exact hnt hmem
    · simp only [List.map_cons, List.map_nil, List.mem_singleton] at hmem
      subst hmem
      exact absurd ((dueWithinThreshold_iff due).mp hq) (by
        have := hbig due htv hdv
        omega)
  · rw [ht]; exact hnt

lemma foldPhase1_not_tracked (now : Timestamp) (live : List RawObs)
    (s : Phase1State) (trip : PyVal)
    (hnt : trip ∉ trackedKeys s.tracked)
    (hbig : ∀ o ∈ live, ∀ d : Int, pyLookup o "trip_id" = Except.ok trip →
      pyLookup o "dueInSeconds" = Except.ok (PyVal.int d) → 600 < d) :
    trip ∉ trackedKeys (foldPhase1 now s live).1.tracked := by
  induction live generalizing s with
  | nil => exact hnt
  | cons bus rest ih =>
    unfold foldPhase1
    cases hp : processObs now s bus with
    | error e => exact hnt
    | ok s' =>
      exact ih s'
        (processObs_not_tracked now s s' bus trip hp hnt
          (fun d => hbig bus (List.mem_cons_self bus rest) d))
        (fun o ho => hbig o (List.mem_cons_of_mem bus ho))

lemma runCycle_not_tracked (tracked : Tracked) (now : Timestamp)
    (live : List RawObs) (trip : PyVal)
    (hnt : trip ∉ trackedKeys tracked)
    (hbig : ∀ o ∈ live, ∀ d : Int, pyLookup o "trip_id" = Except.ok trip →
      pyLookup o "dueInSeconds" = Except.ok (PyVal.int d) → 600 < d) :
    trip ∉ trackedKeys (runCycle tracked now live).1 := by
  unfold runCycle
  rcases hfold : foldPhase1 now ⟨tracked, []⟩ live with ⟨s, oe⟩
  have hs : trip ∉ trackedKeys s.tracked := by
    have := foldPhase1_not_tracked now live ⟨tracked, []⟩ trip hnt hbig
    rwa [hfold] at this
  cases oe with
  | some e => exact hs
  | none =>
    intro hmem
    exact hs (finalize_keys_sub _ now _ s.tracked trip hmem)

lemma runCycles_not_tracked (snaps : List (Timestamp × List RawObs))
    (tracked : Tracked) (trip : PyVal)
    (hnt : trip ∉ trackedKeys tracked)
    (hbig : ∀ p ∈ snaps, ∀ o ∈ p.2, ∀ d : Int,
      pyLookup o "trip_id" = Except.ok trip →
      pyLookup o "dueInSeconds" = Except.ok (PyVal.int d) → 600 < d) :
    trip ∉ trackedKeys (runCycles tracked snaps).1 := by
  induction snaps generalizing tracked with
  | nil => exact hnt
  | cons p rest ih =>
    rcases p with ⟨now, live⟩
    rw [runCycles]
    exact ih (runCycle tracked now live).1
      (runCycle_not_tracked tracked now live trip hnt
        (fun o ho => hbig (now, live) (List.mem_cons_self _ _) o ho))
      (fun q hq => hbig q (List.mem_cons_of_mem _ hq))

/-! ### Concrete sample data for witnesses and counterexamples -/

/-- A poll instant `n` seconds into the epoch, on a Tuesday at 08:xx. -/
def tsAt (n : Int) : Timestamp := ⟨n, 8, 1⟩

/-- A well-formed live observation of trip `T1` with the given
`dueInSeconds`. -/
def obsT1due (d : Int) : RawObs :=
  [("trip_id", PyVal.str "T1"), ("dueInSeconds", PyVal.int d),
   ("route", PyVal.str "41"), ("headsign", PyVal.str "Swords"),
   ("direction", PyVal.str "Inbound")]

/-- A tracked entry created at `tsAt 1000` with a 300-second prediction. -/
def sampleBd : BusData :=
  ⟨tsAt 1000, 300, PyVal.str "41", PyVal.str "Swords", PyVal.str "Inbound", 300⟩

/-! ## C1 -/

/-- C1, counterexample.  The claim says a tracked trip absent from the
snapshot is finalized iff `silence = now - lastSeenAt > graceWindow`
(300 s per the spec), and stays tracked unchanged when
`silence <= graceWindow`.  The code has no grace window: a trip last
seen at second 1000 and absent at the very next poll 20 seconds later —
silence 20 <= 300 — is nevertheless removed from `tracked_buses` and
emitted as a completed journey in that same cycle. -/
theorem C1_counterexample :
    (1020 : Int) - 1000 ≤ 300 ∧
    (runCycle [(PyVal.str "T1", sampleBd)] (tsAt 1020) []).1 = [] ∧
    ((runCycle [(PyVal.str "T1", sampleBd)] (tsAt 1020) []).2.1).map
      Row.trip_id = [PyVal.str "T1"] := by
  refine ⟨by decide, ?_, ?_⟩ <;> rfl

/-- C1, amended: every tracked trip absent from the current snapshot is
finalized in that same cycle — removed from the mapping and emitted as a
completed journey — regardless of how recently it was last observed;
there is no grace window (provided the cycle raises no error). -/
theorem C1_amended (tracked : Tracked) (now : Timestamp) (live : List RawObs)
    (trip : PyVal)
    (htrip : trip ∈ trackedKeys tracked)
    (habs : ∀ o ∈ live, ¬ pyLookup o "trip_id" = Except.ok trip)
    (hok : (runCycle tracked now live).2.2 = none) :
    trip ∉ trackedKeys (runCycle tracked now live).1 ∧
      ∃ r ∈ (runCycle tracked now live).2.1, r.trip_id = trip := by
  unfold runCycle at hok ⊢
  rcases hfold : foldPhase1 now ⟨tracked, []⟩ live with ⟨s, oe⟩
  rw [hfold] at hok
  cases oe with
  | some e => simp at hok
  | none =>
    have hkey : trip ∈ trackedKeys s.tracked := by
      have := foldPhase1_keys_mono now live ⟨tracked, []⟩ trip htrip
      rwa [hfold] at this
    have hcur : trip ∉ s.current := by
      intro hmem
      have := foldPhase1_current_mem now live ⟨tracked, []⟩ trip
        (by rw [hfold]; exact hmem)
      rcases this with hnil | ⟨o, ho, hlk⟩
      · simp at hnil
      · exact habs o ho hlk
    have hdis : trip ∈ (trackedKeys s.tracked).filter fun k => ¬ k ∈ s.current := by
      refine List.mem_filter.mpr ⟨hkey, by simpa using hcur⟩
    exact finalize_complete completionRow completionRow_trip_id now _ s.tracked
      hok trip hdis

/-- C1 witness: the amended claim at a concrete input — trip `T0` tracked,
snapshot containing only an unrelated trip `T1`. -/
theorem C1_witness :
    (PyVal.str "T0") ∉
      trackedKeys (runCycle [(PyVal.str "T0", sampleBd)] (tsAt 1020)
        [obsT1due 240]).1 ∧
      ∃ r ∈ (runCycle [(PyVal.str "T0", sampleBd)] (tsAt 1020)
        [obsT1due 240]).2.1, r.trip_id = PyVal.str "T0" :=
  C1_amended [(PyVal.str "T0", sampleBd)] (tsAt 1020) [obsT1due 240]
    (PyVal.str "T0") (by decide) (by decide) (by decide)

/-! ## C2 -/

/-- C2, counterexample.  The claim says the arrival instant used for
finalization is `lastSeenAt`, the time of the last poll in which the trip
was observed, not the absence-detection time `now`.  In the run below,
trip `T1` is observed at seconds 1000 and 1020 and is gone at the poll at
second 1040: the last poll that observed it is at 1020, yet the emitted
journey's `arrival_time` is 1040, the cycle in which absence was detected
(the code writes `current_time` at monitorbystop.py line 127). -/
theorem C2_counterexample :
    ((runCycles []
        [(tsAt 1000, [obsT1due 300]), (tsAt 1020, [obsT1due 280]),
         (tsAt 1040, [])]).2).map (fun r => r.arrival_time.sec) = [1040] ∧
      (1040 : Int) ≠ 1020 := by
  exact ⟨rfl, by decide⟩

/-- C2, amended: the arrival instant used for finalization is `now`, the
time of the poll cycle in which the trip's absence is detected (the code
has no `lastSeenAt`), and `actualDurationSeconds = arrivalAt - firstSeenAt`
exactly, with `arrivalAt` that detection time. -/
theorem C2_amended (tracked : Tracked) (now : Timestamp) (live : List RawObs)
    (r : Row) (hr : r ∈ (runCycle tracked now live).2.1) :
    r.arrival_time = now ∧
      r.actual_duration_seconds = r.arrival_time.sec - r.first_seen_at.sec := by
  obtain ⟨trip, bd, hc⟩ := runCycle_rows_origin tracked now live r hr
  obtain ⟨-, hfseen, -, harr, hdur, -⟩ := completionRow_fields trip bd now r hc
  refine ⟨harr, ?_⟩
  rw [hdur, harr, hfseen]

/-- C2 witness: the amended claim at a concrete completed journey. -/
theorem C2_witness :
    ∃ r ∈ (runCycle [(PyVal.str "T1", sampleBd)] (tsAt 1020) []).2.1,
      r.arrival_time = tsAt 1020 ∧
        r.actual_duration_seconds = r.arrival_time.sec - r.first_seen_at.sec := by
  have hmem : ∀ r ∈ (runCycle [(PyVal.str "T1", sampleBd)] (tsAt 1020) []).2.1,
      r.arrival_time = tsAt 1020 ∧
        r.actual_duration_seconds = r.arrival_time.sec - r.first_seen_at.sec :=
    fun r hr => C2_amended [(PyVal.str "T1", sampleBd)] (tsAt 1020) [] r hr
  refine ⟨((runCycle [(PyVal.str "T1", sampleBd)] (tsAt 1020) []).2.1).head (by decide), ?_, ?_⟩
  · exact List.head_mem _
  · exact hmem _ (List.head_mem _)

/-! ## C3 -/

/-- A tracked entry whose initial prediction was 0 seconds. -/
def bdZeroDue : BusData :=
  ⟨tsAt 1000, 0, PyVal.str "41", PyVal.str "Swords", PyVal.str "Inbound", 0⟩

/-- C3: the claim (and spec §4.2/§7c) requires that completing a journey
with `initialDueInSeconds == 0` must not raise and must produce a defined
sentinel.  The code instead computes
`(prediction_difference / bus_data['initial_due_in_seconds']) * 100`
unguarded (monitorbystop.py line 132): the completion raises
`ZeroDivisionError`, the cycle is aborted by the catch-all handler, no row
is written, and — worse — the entry is never deleted, so the same failure
recurs every subsequent cycle. -/
theorem C3_code_bug :
    completionRow (PyVal.str "T1") bdZeroDue (tsAt 1020) =
      Except.error PyErr.zeroDivisionError ∧
    runCycle [(PyVal.str "T1", bdZeroDue)] (tsAt 1020) [] =
      ([(PyVal.str "T1", bdZeroDue)], [], some PyErr.zeroDivisionError) := by
  exact ⟨rfl, rfl⟩

/-! ## C4 -/

/-- A malformed observation: no `trip_id` key at all. -/
def obsNoTripId : RawObs :=
  [("route", PyVal.str "41"), ("dueInSeconds", PyVal.int 200)]

/-- A well-formed observation of a second trip `T2`. -/
def obsT2good : RawObs :=
  [("trip_id", PyVal.str "T2"), ("dueInSeconds", PyVal.int 100),
   ("route", PyVal.str "41"), ("headsign", PyVal.str "Swords"),
   ("direction", PyVal.str "Inbound")]

/-- The entry created for `T1` by the C4 run below. -/
def bdT1at1020 : BusData :=
  ⟨tsAt 1020, 300, PyVal.str "41", PyVal.str "Swords", PyVal.str "Inbound", 300⟩

/-- C4, counterexample.  The claim says a single malformed observation is
skipped and every remaining observation and disappeared trip of the cycle
is still processed.  In the run below the snapshot is
`[good T1, malformed, good T2]` with tracked trip `T0` absent from it:
the `KeyError` on the malformed record aborts the whole cycle
(monitorbystop.py's single `try` around lines 83-145), so `T2` is never
tracked, `T0` is never finalized, and no row is written — only `T1`,
processed before the bad record, was added. -/
theorem C4_counterexample :
    runCycle [(PyVal.str "T0", sampleBd)] (tsAt 1020)
        [obsT1due 300, obsNoTripId, obsT2good] =
      ([(PyVal.str "T0", sampleBd), (PyVal.str "T1", bdT1at1020)], [],
        some (PyErr.keyError "trip_id")) ∧
    PyVal.str "T2" ∉ trackedKeys (runCycle [(PyVal.str "T0", sampleBd)]
      (tsAt 1020) [obsT1due 300, obsNoTripId, obsT2good]).1 := by
  exact ⟨rfl, by decide⟩

/-- C4, amended: a raise on one observation aborts the remainder of the
cycle — the snapshot suffix after the bad record is never examined and no
disappeared trip is finalized that cycle — while the per-cycle handler
contains the error, so the cycle still returns (and later cycles run)
with the mapping as left by the successfully processed prefix. -/
theorem C4_amended (tracked : Tracked) (now : Timestamp)
    (pre suf : List RawObs) (bad : RawObs) (s1 : Phase1State) (e : PyErr)
    (hpre : foldPhase1 now ⟨tracked, []⟩ pre = (s1, none))
    (hbad : processObs now s1 bad = Except.error e) :
    runCycle tracked now (pre ++ bad :: suf) = (s1.tracked, [], some e) := by
  have h2 : foldPhase1 now ⟨tracked, []⟩ (pre ++ bad :: suf) = (s1, some e) := by
    rw [foldPhase1_append, hpre]
    show foldPhase1 now s1 (bad :: suf) = (s1, some e)
    simp only [foldPhase1, hbad]
  unfold runCycle
  rw [h2]

/-- C4 witness: the amended claim at the concrete C4 run. -/
theorem C4_witness :
    foldPhase1 (tsAt 1020) ⟨[(PyVal.str "T0", sampleBd)], []⟩ [obsT1due 300] =
      (⟨[(PyVal.str "T0", sampleBd), (PyVal.str "T1", bdT1at1020)],
        [PyVal.str "T1"]⟩, none) ∧
    processObs (tsAt 1020)
        ⟨[(PyVal.str "T0", sampleBd), (PyVal.str "T1", bdT1at1020)],
          [PyVal.str "T1"]⟩ obsNoTripId =
      Except.error (PyErr.keyError "trip_id") ∧
    runCycle [(PyVal.str "T0", sampleBd)] (tsAt 1020)
        ([obsT1due 300] ++ obsNoTripId :: [obsT2good]) =
      ([(PyVal.str "T0", sampleBd), (PyVal.str "T1", bdT1at1020)], [],
        some (PyErr.keyError "trip_id")) :=
  ⟨rfl, rfl,
    C4_amended [(PyVal.str "T0", sampleBd)] (tsAt 1020) [obsT1due 300]
      [obsT2good] obsNoTripId
      ⟨[(PyVal.str "T0", sampleBd), (PyVal.str "T1", bdT1at1020)],
        [PyVal.str "T1"]⟩
      (PyErr.keyError "trip_id") rfl rfl⟩

/-! ## C5 -/

/-- C5: in `monitor_bus(stop_ids, route_numbers)` of monitor.py, every
attempted finalization evaluates the bare name `stop_id` (line 176),
which is bound nowhere in that function (its parameter is `stop_ids`) nor
at module scope, and raises `NameError` before the row is written: the
variant persists no completed journey and never deletes a tracked trip,
for every route filter, tracker state, poll time and snapshot. -/
theorem C5_theorem (rn : Option (List PyVal)) (tracked : Tracked)
    (now : Timestamp) (live : List RawObs) :
    (∀ trip bd, completionRowMulti trip bd now =
      Except.error (PyErr.nameError "stop_id")) ∧
    (runCycleMulti rn tracked now live).2.1 = [] ∧
    ∀ k ∈ trackedKeys tracked,
      k ∈ trackedKeys (runCycleMulti rn tracked now live).1 := by
  have herr : ∀ tr bd (nw : Timestamp), ∃ e,
      completionRowMulti tr bd nw = Except.error e :=
    fun tr bd nw => ⟨PyErr.nameError "stop_id", completionRowMulti_error tr bd nw⟩
  refine ⟨fun trip bd => completionRowMulti_error trip bd now, ?_, ?_⟩
  · unfold runCycleMulti
    rcases hfold : foldPhase1Multi rn now ⟨tracked, []⟩ live with ⟨s, oe⟩
    cases oe with
    | some e => rfl
    | none => exact (finalize_all_error completionRowMulti herr now _ s.tracked).2
  · intro k hk
    unfold runCycleMulti
    rcases hfold : foldPhase1Multi rn now ⟨tracked, []⟩ live with ⟨s, oe⟩
    have hks : k ∈ trackedKeys s.tracked := by
      have := foldPhase1Multi_keys_mono rn now live ⟨tracked, []⟩ k hk
      rwa [hfold] at this
    cases oe with
    | some e => exact hks
    | none =>
      have := (finalize_all_error completionRowMulti herr now
        ((trackedKeys s.tracked).filter fun k => ¬ k ∈ s.current) s.tracked).1
      rw [this]
      exact hks

/-- C5 witness: with trip `T1` tracked and an empty snapshot, the
multi-stop variant emits no row and keeps `T1` tracked. -/
theorem C5_witness :
    (runCycleMulti none [(PyVal.str "T1", sampleBd)] (tsAt 1020) []).2.1 = [] ∧
    PyVal.str "T1" ∈ trackedKeys
      (runCycleMulti none [(PyVal.str "T1", sampleBd)] (tsAt 1020) []).1 :=
  ⟨(C5_theorem none [(PyVal.str "T1", sampleBd)] (tsAt 1020) []).2.1,
   (C5_theorem none [(PyVal.str "T1", sampleBd)] (tsAt 1020) []).2.2
     (PyVal.str "T1") (by decide)⟩

/-! ## C6 -/

/-- C6, counterexample.  The claim says a new `TrackedJourney` is created
with `firstSeenAt = lastSeenAt = now`.  The entry the code creates
(monitorbystop.py lines 98-105) has no `last_seen_at` field at all —
its keys are exactly `trackedEntryKeys` — so no `lastSeenAt = now`
assignment happens at creation (the rest of the claim is the amended
theorem). -/
theorem C6_counterexample :
    (runCycle [] (tsAt 1000) [obsT1due 300]).1 = [(PyVal.str "T1", sampleBd)] ∧
    List.lookup "last_seen_at" (busDataDict sampleBd) = none ∧
    "last_seen_at" ∉ trackedEntryKeys := by
  exact ⟨rfl, rfl, by decide⟩

/-- C6, amended: for an untracked `tripId`, `dueInSeconds / 60 <= 10`
(equivalently `dueInSeconds <= 600`) creates an entry with
`first_seen_at = now` and `initial_due_in_seconds = last_seen_due_seconds =
dueInSeconds` (there is no `lastSeenAt` field); `dueInSeconds > 600` leaves
the mapping unchanged; and over any sequence of snapshots, a trip only
ever observed with `dueInSeconds > 600` is never tracked. -/
theorem C6_amended :
    (∀ d : Int, ((d : ℚ) / 60 ≤ 10) ↔ d ≤ 600) ∧
    (∀ (now : Timestamp) (s : Phase1State) (bus : RawObs)
      (tv rt hs dr : PyVal) (due : Int),
      pyLookup bus "trip_id" = Except.ok tv →
      pyLookup bus "dueInSeconds" = Except.ok (PyVal.int due) →
      pyLookup bus "route" = Except.ok rt →
      pyLookup bus "headsign" = Except.ok hs →
      pyLookup bus "direction" = Except.ok dr →
      containsKey s.tracked tv = false →
      due ≤ 600 →
      processObs now s bus =
        Except.ok ⟨s.tracked ++ [(tv, ⟨now, due, rt, hs, dr, due⟩)],
          s.current ++ [tv]⟩) ∧
    (∀ (now : Timestamp) (s : Phase1State) (bus : RawObs)
      (tv : PyVal) (due : Int),
      pyLookup bus "trip_id" = Except.ok tv →
      pyLookup bus "dueInSeconds" = Except.ok (PyVal.int due) →
      containsKey s.tracked tv = false →
      600 < due →
      processObs now s bus = Except.ok ⟨s.tracked, s.current ++ [tv]⟩) ∧
    (∀ (snaps : List (Timestamp × List RawObs)) (tracked : Tracked)
      (trip : PyVal),
      trip ∉ trackedKeys tracked →
      (∀ p ∈ snaps, ∀ o ∈ p.2, ∀ d : Int,
        pyLookup o "trip_id" = Except.ok trip →
        pyLookup o "dueInSeconds" = Except.ok (PyVal.int d) → 600 < d) →
      trip ∉ trackedKeys (runCycles tracked snaps).1) :=
  ⟨due_minutes_iff,
   fun now s bus tv rt hs dr due htv hdv hrt hhs hdr hnc hle =>
     processObs_creates now s bus tv rt hs dr due htv hdv hrt hhs hdr hnc hle,
   fun now s bus tv due htv hdv hnc hgt =>
     processObs_ignores now s bus tv due htv hdv hnc hgt,
   fun snaps tracked trip hnt hbig =>
     runCycles_not_tracked snaps tracked trip hnt hbig⟩

/-- C6 witness: the amended claim at concrete inputs — an observation of
`T1` at 300 s due creates exactly the sample entry, one at 601 s due is
ignored, and a trip only ever seen at 601 s due is never tracked. -/
theorem C6_witness :
    processObs (tsAt 1000) ⟨[], []⟩ (obsT1due 300) =
      Except.ok ⟨[(PyVal.str "T1", sampleBd)], [PyVal.str "T1"]⟩ ∧
    processObs (tsAt 1000) ⟨[], []⟩ (obsT1due 601) =
      Except.ok ⟨[], [PyVal.str "T1"]⟩ ∧
    PyVal.str "T1" ∉
      trackedKeys (runCycles [] [(tsAt 1000, [obsT1due 601])]).1 := by
  refine ⟨C6_amended.2.1 (tsAt 1000) ⟨[], []⟩ (obsT1due 300)
      (PyVal.str "T1") (PyVal.str "41") (PyVal.str "Swords")
      (PyVal.str "Inbound") 300 rfl rfl rfl rfl rfl (by decide) (by decide),
    C6_amended.2.2.1 (tsAt 1000) ⟨[], []⟩ (obsT1due 601)
      (PyVal.str "T1") 601 rfl rfl (by decide) (by decide),
    C6_amended.2.2.2 [(tsAt 1000, [obsT1due 601])] [] (PyVal.str "T1")
      (by decide) ?_⟩
  intro p hp o ho d htv hdv
  simp only [List.mem_singleton] at hp
  subst hp
  simp only [List.mem_singleton] at ho
  subst ho
  simp [pyLookup, obsT1due, List.lookup] at hdv
  omega

/-! ## C7 -/

/-- C7, counterexample.  The claim says an observation of a tracked trip
changes exactly two fields, `lastSeenAt := now` and
`lastSeenDueInSeconds := dueInSeconds`.  The code (monitorbystop.py
line 95) assigns only `last_seen_due_seconds`; the updated entry still
has no `last_seen_at` field, so no `lastSeenAt := now` update exists —
exactly one field changes. -/
theorem C7_counterexample :
    processObs (tsAt 1020) ⟨[(PyVal.str "T1", sampleBd)], []⟩ (obsT1due 250) =
      Except.ok ⟨[(PyVal.str "T1",
        ⟨tsAt 1000, 300, PyVal.str "41", PyVal.str "Swords",
          PyVal.str "Inbound", 250⟩)], [PyVal.str "T1"]⟩ ∧
    List.lookup "last_seen_at" (busDataDict
      ⟨tsAt 1000, 300, PyVal.str "41", PyVal.str "Swords",
        PyVal.str "Inbound", 250⟩) = none := by
  exact ⟨rfl, rfl⟩

/-- C7, amended: an observation of an already-tracked trip updates exactly
one field of its entry — `last_seen_due_seconds := dueInSeconds` — while
`first_seen_at`, `initial_due_in_seconds`, `route`, `headsign`,
`direction` and the key set all stay as at creation (there is no
`lastSeenAt` field to update). -/
theorem C7_amended (now : Timestamp) (s : Phase1State) (bus : RawObs)
    (tv : PyVal) (due : Int) (bd : BusData)
    (htv : pyLookup bus "trip_id" = Except.ok tv)
    (hdv : pyLookup bus "dueInSeconds" = Except.ok (PyVal.int due))
    (hbd : List.lookup tv s.tracked = some bd) :
    processObs now s bus =
      Except.ok ⟨setLastSeenDue s.tracked tv due, s.current ++ [tv]⟩ ∧
    List.lookup tv (setLastSeenDue s.tracked tv due) =
      some { bd with last_seen_due_seconds := due } ∧
    ({ bd with last_seen_due_seconds := due }).first_seen_at =
      bd.first_seen_at ∧
    ({ bd with last_seen_due_seconds := due }).initial_due_in_seconds =
      bd.initial_due_in_seconds ∧
    ({ bd with last_seen_due_seconds := due }).route = bd.route ∧
    ({ bd with last_seen_due_seconds := due }).headsign = bd.headsign ∧
    ({ bd with last_seen_due_seconds := due }).direction = bd.direction ∧
    ({ bd with last_seen_due_seconds := due }).last_seen_due_seconds = due ∧
    trackedKeys (setLastSeenDue s.tracked tv due) = trackedKeys s.tracked := by
  have hc : containsKey s.tracked tv = true := by
    unfold containsKey
    rw [hbd]
    rfl
  exact ⟨processObs_refreshes now s bus tv due htv hdv hc,
    lookup_setLastSeenDue_self s.tracked tv due bd hbd,
    rfl, rfl, rfl, rfl, rfl, rfl,
    trackedKeys_setLastSeenDue s.tracked tv due⟩

/-- C7 witness: the amended claim at a concrete tracked trip. -/
theorem C7_witness :
    processObs (tsAt 1020) ⟨[(PyVal.str "T1", sampleBd)], []⟩ (obsT1due 250) =
      Except.ok ⟨setLastSeenDue [(PyVal.str "T1", sampleBd)]
        (PyVal.str "T1") 250, [] ++ [PyVal.str "T1"]⟩ ∧
    List.lookup (PyVal.str "T1")
        (setLastSeenDue [(PyVal.str "T1", sampleBd)] (PyVal.str "T1") 250) =
      some { sampleBd with last_seen_due_seconds := 250 } :=
  ⟨(C7_amended (tsAt 1020) ⟨[(PyVal.str "T1", sampleBd)], []⟩ (obsT1due 250)
      (PyVal.str "T1") 250 sampleBd rfl rfl rfl).1,
   (C7_amended (tsAt 1020) ⟨[(PyVal.str "T1", sampleBd)], []⟩ (obsT1due 250)
      (PyVal.str "T1") 250 sampleBd rfl rfl rfl).2.1⟩

/-! ## C8 -/

lemma runCycles_nodup (snaps : List (Timestamp × List RawObs))
    (tracked : Tracked) (hn : (trackedKeys tracked).Nodup) :
    (trackedKeys (runCycles tracked snaps).1).Nodup := by
  induction snaps generalizing tracked with
  | nil => exact hn
  | cons p rest ih =>
    rcases p with ⟨now, live⟩
    rw [runCycles]
    exact ih (runCycle tracked now live).1 (runCycle_nodup tracked now live hn)

lemma runCycle_rows_absent (tracked : Tracked) (now : Timestamp)
    (live : List RawObs) (r : Row)
    (hr : r ∈ (runCycle tracked now live).2.1) :
    r.trip_id ∉ trackedKeys (runCycle tracked now live).1 := by
  unfold runCycle at hr ⊢
  rcases hfold : foldPhase1 now ⟨tracked, []⟩ live with ⟨s, oe⟩
  rw [hfold] at hr
  cases oe with
  | some e => simp at hr
  | none =>
    exact finalize_rows_absent completionRow completionRow_trip_id now _
      s.tracked r hr

/-- C8: starting from a mapping with unique trip-id keys (as any Python
dict guarantees, and as the empty initial mapping trivially satisfies),
the mapping's keys stay unique through any sequence of poll cycles, and a
journey completed in a cycle has its trip id absent from the mapping that
cycle returns — so the same tracker state cannot be completed twice. -/
theorem C8_theorem (tracked : Tracked)
    (hn : (trackedKeys tracked).Nodup) :
    (∀ snaps, (trackedKeys (runCycles tracked snaps).1).Nodup) ∧
    (∀ (now : Timestamp) (live : List RawObs) (r : Row),
      r ∈ (runCycle tracked now live).2.1 →
      r.trip_id ∉ trackedKeys (runCycle tracked now live).1) :=
  ⟨fun snaps => runCycles_nodup snaps tracked hn,
   fun now live r hr => runCycle_rows_absent tracked now live r hr⟩

/-- C8 witness: the theorem at a concrete two-entry mapping, with one
trip completing. -/
theorem C8_witness :
    (trackedKeys [(PyVal.str "T1", sampleBd)]).Nodup ∧
    (trackedKeys (runCycles [(PyVal.str "T1", sampleBd)]
      [(tsAt 1020, [])]).1).Nodup ∧
    ∃ r ∈ (runCycle [(PyVal.str "T1", sampleBd)] (tsAt 1020) []).2.1,
      r.trip_id ∉ trackedKeys
        (runCycle [(PyVal.str "T1", sampleBd)] (tsAt 1020) []).1 := by
  refine ⟨by decide,
    (C8_theorem [(PyVal.str "T1", sampleBd)] (by decide)).1 [(tsAt 1020, [])],
    ⟨((runCycle [(PyVal.str "T1", sampleBd)] (tsAt 1020) []).2.1).head
      (by decide), List.head_mem _, ?_⟩⟩
  exact (C8_theorem [(PyVal.str "T1", sampleBd)] (by decide)).2 (tsAt 1020) []
    _ (List.head_mem _)

/-! ## C9 -/

/-- C9: every completed journey's derived metrics satisfy exactly
`predictionDifferenceSeconds = actualDurationSeconds - initialDueInSeconds`,
`predictionDifferenceMinutes = predictionDifferenceSeconds / 60`,
`absoluteDifferenceSeconds = |predictionDifferenceSeconds|`, and
`trackingDurationSeconds = actualDurationSeconds`
(monitorbystop.py lines 113, 128-131, 137). -/
theorem C9_theorem (tracked : Tracked) (now : Timestamp) (live : List RawObs)
    (r : Row) (hr : r ∈ (runCycle tracked now live).2.1) :
    r.prediction_difference_seconds =
      r.actual_duration_seconds - r.initial_due_in_seconds ∧
    r.prediction_difference_minutes =
      (r.prediction_difference_seconds : ℚ) / 60 ∧
    r.absolute_difference_seconds = |r.prediction_difference_seconds| ∧
    r.tracking_duration_seconds = r.actual_duration_seconds := by
  obtain ⟨trip, bd, hc⟩ := runCycle_rows_origin tracked now live r hr
  obtain ⟨-, -, -, -, -, hpd, hpm, habsd, htrk, -, -⟩ :=
    completionRow_fields trip bd now r hc
  exact ⟨hpd, hpm, habsd, htrk⟩

/-- C9 witness: the metric identities on a concrete completed journey. -/
theorem C9_witness :
    ∃ r ∈ (runCycle [(PyVal.str "T1", sampleBd)] (tsAt 1020) []).2.1,
      r.prediction_difference_seconds =
        r.actual_duration_seconds - r.initial_due_in_seconds ∧
      r.prediction_difference_minutes =
        (r.prediction_difference_seconds : ℚ) / 60 ∧
      r.absolute_difference_seconds = |r.prediction_difference_seconds| ∧
      r.tracking_duration_seconds = r.actual_duration_seconds := by
  refine ⟨((runCycle [(PyVal.str "T1", sampleBd)] (tsAt 1020) []).2.1).head
    (by decide), List.head_mem _, ?_⟩
  exact C9_theorem [(PyVal.str "T1", sampleBd)] (tsAt 1020) [] _
    (List.head_mem _)

/-! ## C10 -/

lemma get_time_of_day_morning (h : Int) :
    get_time_of_day h = "Morning" ↔ 5 ≤ h ∧ h < 12 := by
  unfold get_time_of_day
  split_ifs with h1 h2 h3 <;> simp_all

lemma get_time_of_day_afternoon (h : Int) :
    get_time_of_day h = "Afternoon" ↔ 12 ≤ h ∧ h < 17 := by
  unfold get_time_of_day
  split_ifs with h1 h2 h3 <;> simp_all <;> omega

lemma get_time_of_day_evening (h : Int) :
    get_time_of_day h = "Evening" ↔ 17 ≤ h ∧ h < 21 := by
  unfold get_time_of_day
  split_ifs with h1 h2 h3 <;> simp_all <;> omega

lemma get_time_of_day_night (h : Int) :
    get_time_of_day h = "Night" ↔ (h < 5 ∨ 21 ≤ h) := by
  unfold get_time_of_day
  split_ifs with h1 h2 h3 <;> simp_all <;> omega

lemma is_peak_hour_iff (h d : Int) :
    is_peak_hour h d = true ↔
      d < 5 ∧ ((7 ≤ h ∧ h < 9) ∨ (16 ≤ h ∧ h < 18)) := by
  unfold is_peak_hour
  simp only [Bool.and_eq_true, Bool.or_eq_true, decide_eq_true_eq]
  tauto

/-- C10: every completed journey's `time_of_day` is
`get_time_of_day(firstSeenAt.hour)` and its `peak_hours` is
`is_peak_hour(firstSeenAt.hour, firstSeenAt.weekday())` — both computed
from `firstSeenAt`, not the arrival instant — where `get_time_of_day`
buckets Morning on [5,12), Afternoon on [12,17), Evening on [17,21) and
Night otherwise, and `is_peak_hour` is true iff the day is a weekday
(weekday < 5) and the hour is in [7,9) or [16,18). -/
theorem C10_theorem (tracked : Tracked) (now : Timestamp)
    (live : List RawObs) (r : Row)
    (hr : r ∈ (runCycle tracked now live).2.1) :
    r.time_of_day = get_time_of_day r.first_seen_at.hour ∧
    r.peak_hours = is_peak_hour r.first_seen_at.hour
      (r.first_seen_at.weekday.val : Int) ∧
    (∀ h : Int, get_time_of_day h = "Morning" ↔ 5 ≤ h ∧ h < 12) ∧
    (∀ h : Int, get_time_of_day h = "Afternoon" ↔ 12 ≤ h ∧ h < 17) ∧
    (∀ h : Int, get_time_of_day h = "Evening" ↔ 17 ≤ h ∧ h < 21) ∧
    (∀ h : Int, get_time_of_day h = "Night" ↔ (h < 5 ∨ 21 ≤ h)) ∧
    (∀ h d : Int, is_peak_hour h d = true ↔
      d < 5 ∧ ((7 ≤ h ∧ h < 9) ∨ (16 ≤ h ∧ h < 18))) := by
  obtain ⟨trip, bd, hc⟩ := runCycle_rows_origin tracked now live r hr
  obtain ⟨-, hfs, -, -, -, -, -, -, -, htod, hpk⟩ :=
    completionRow_fields trip bd now r hc
  refine ⟨?_, ?_, get_time_of_day_morning, get_time_of_day_afternoon,
    get_time_of_day_evening, get_time_of_day_night, is_peak_hour_iff⟩
  · rw [htod, hfs]
  · rw [hpk, hfs]

/-- C10 witness: the classification identities on a concrete completed
journey (first seen Tuesday 08:xx — Morning, peak). -/
theorem C10_witness :
    ∃ r ∈ (runCycle [(PyVal.str "T1", sampleBd)] (tsAt 1020) []).2.1,
      r.time_of_day = get_time_of_day r.first_seen_at.hour ∧
      r.peak_hours = is_peak_hour r.first_seen_at.hour
        (r.first_seen_at.weekday.val : Int) := by
  refine ⟨((runCycle [(PyVal.str "T1", sampleBd)] (tsAt 1020) []).2.1).head
    (by decide), List.head_mem _, ?_, ?_⟩
  · exact (C10_theorem [(PyVal.str "T1", sampleBd)] (tsAt 1020) [] _
      (List.head_mem _)).1
  · exact (C10_theorem [(PyVal.str "T1", sampleBd)] (tsAt 1020) [] _
      (List.head_mem _)).2.1
